import Mathlib

/-!
Verification of the interactive graph-editing engine of the ops-flow
dashboard: the flow store (nodes, edges, viewport, selection, pending
placement, dirty flag), the click-to-place interaction handlers, the
property-editor integration binding, and the retry policies of the
integration data hooks.

The store operations are translated from the zustand flow store; the
canvas and palette handlers from the flow editor and node palette
components; the property-editor handler from the node properties form;
the retry predicates from the per-integration query hooks.

The helper `applyNodeChanges` / `applyEdgeChanges` fold is imported by
the store from the external rendering collaborator and its code is not
part of this repository; it is modelled here from the specification of
the change-application contract (add rejected on duplicate id, remove
by id, position update in place, select flag update with exclusive
semantics for a positive select).
-/

/-- Canvas coordinates of a node ({x, y} in the source). -/
structure XYPosition where
  x : Int
  y : Int
deriving DecidableEq, Repr

/-- Pan and zoom state ({x, y, zoom} in the source). -/
structure Viewport where
  x : Int
  y : Int
  zoom : Int
deriving DecidableEq, Repr

/-- The data bag carried by a flow node.  The source declares label,
integrationType and an open map; the fields modelled here are the ones
the store and the property editor read or write. -/
structure FlowNodeData where
  label : String
  integrationType : String
  description : Option String := none
  integrationId : Option String := none
  selectedProjectId : Option Int := none
  selectedJobName : Option String := none
  selectedNamespace : Option String := none
  selectedProjectKey : Option String := none
  selectedRealm : Option String := none
deriving DecidableEq, Repr

/-- A node of the flow graph (FlowNode in the source).  The optional
selected flag of the source is modelled as a Bool, absent read as
false. -/
structure FlowNode where
  id : String
  type : String
  position : XYPosition
  data : FlowNodeData
  selected : Bool := false
deriving DecidableEq, Repr

/-- An edge of the flow graph (FlowEdge in the source). -/
structure FlowEdge where
  id : String
  source : String
  target : String
  sourceHandle : Option String := none
  targetHandle : Option String := none
deriving DecidableEq, Repr

/-- A connection request delivered by the canvas (Connection in the
source); source and target may be null or empty. -/
structure Connection where
  source : Option String
  target : Option String
  sourceHandle : Option String := none
  targetHandle : Option String := none
deriving DecidableEq, Repr

/-- The state held by the flow store (FlowState in the source). -/
structure FlowState where
  nodes : List FlowNode
  edges : List FlowEdge
  viewport : Viewport
  selectedNodeId : Option String
  pendingNodeType : Option String
  isDirty : Bool
  currentFlowId : Option String
deriving DecidableEq, Repr

/-- initialViewport in the source. -/
def initialViewport : Viewport := { x := 0, y := 0, zoom := 1 }

/-- The initial store state. -/
def initialState : FlowState :=
  { nodes := [], edges := [], viewport := initialViewport,
    selectedNodeId := none, pendingNodeType := none,
    isDirty := false, currentFlowId := none }

/-- JavaScript falsiness of a nullable string: null, undefined and the
empty string are falsy. -/
def optFalsy : Option String → Bool
  | none => true
  | some s => s == ""

/-- A change record for the node list, as submitted to the store by the
rendering collaborator or by the placement handler. -/
inductive NodeChange where
  | add (item : FlowNode)
  | remove (id : String)
  | position (id : String) (pos : XYPosition)
  | select (id : String) (selected : Bool)
deriving DecidableEq, Repr

/-- A change record for the edge list. -/
inductive EdgeChange where
  | add (item : FlowEdge)
  | remove (id : String)
deriving DecidableEq, Repr

/-- True exactly on select change records. -/
def isSelectChange : NodeChange → Bool
  | .select _ _ => true
  | _ => false

/-- Modelled from the spec: one step of the change fold performed by
applyNodeChanges of the rendering collaborator, whose code is not in
this repository.  An add whose id already exists is rejected and
dropped; remove deletes by id; a position change updates the node in
place; a positive select makes its node the sole selected one and a
negative select clears only that node. -/
def applyNodeChange (nodes : List FlowNode) : NodeChange → List FlowNode
  | .add item =>
      if nodes.any (fun n => n.id == item.id) then nodes else nodes ++ [item]
  | .remove i => nodes.filter (fun n => n.id != i)
  | .position i p =>
      nodes.map (fun n => if n.id == i then { n with position := p } else n)
  | .select i s =>
      if s then nodes.map (fun n => { n with selected := n.id == i })
      else nodes.map (fun n => if n.id == i then { n with selected := false } else n)

/-- Modelled from the spec: applyNodeChanges folds the batch against the
current list in array order. -/
def applyNodeChanges (changes : List NodeChange) (nodes : List FlowNode) : List FlowNode :=
  changes.foldl applyNodeChange nodes

/-- Modelled from the spec: one step of the edge change fold of the
rendering collaborator. -/
def applyEdgeChange (edges : List FlowEdge) : EdgeChange → List FlowEdge
  | .add item => edges ++ [item]
  | .remove i => edges.filter (fun e => e.id != i)

/-- Modelled from the spec: applyEdgeChanges folds the batch in array
order. -/
def applyEdgeChanges (changes : List EdgeChange) (edges : List FlowEdge) : List FlowEdge :=
  changes.foldl applyEdgeChange edges

/-- Store action setNodes. -/
def setNodes (nodes : List FlowNode) (st : FlowState) : FlowState :=
  { st with nodes := nodes, isDirty := true }

/-- Store action setEdges. -/
def setEdges (edges : List FlowEdge) (st : FlowState) : FlowState :=
  { st with edges := edges, isDirty := true }

/-- Store action setViewport; the source sets only the viewport field. -/
def setViewport (viewport : Viewport) (st : FlowState) : FlowState :=
  { st with viewport := viewport }

/-- Store action onNodesChange: applies the batch, recomputes the
selected node id from the first select change when one is present,
otherwise keeps it only while some node is still flagged selected, and
marks the store dirty. -/
def onNodesChange (changes : List NodeChange) (st : FlowState) : FlowState :=
  let updatedNodes := applyNodeChanges changes st.nodes
  let selectedNodeId :=
    match changes.find? isSelectChange with
    | some (NodeChange.select i s) => if s then some i else none
    | _ =>
        if updatedNodes.any (fun n => n.selected) then st.selectedNodeId
        else none
  { st with nodes := updatedNodes, isDirty := true, selectedNodeId := selectedNodeId }

/-- Store action onEdgesChange. -/
def onEdgesChange (changes : List EdgeChange) (st : FlowState) : FlowState :=
  { st with edges := applyEdgeChanges changes st.edges, isDirty := true }

/-- Store action onConnect: synthesizes an edge with the derived id and
appends it; a falsy source or target makes the whole call a no-op. -/
def onConnect (c : Connection) (st : FlowState) : FlowState :=
  if optFalsy c.source || optFalsy c.target then st
  else
    { st with
      edges := st.edges ++
        [{ id := "edge-" ++ c.source.getD "" ++ "-" ++ c.target.getD "",
           source := c.source.getD "", target := c.target.getD "",
           sourceHandle := c.sourceHandle, targetHandle := c.targetHandle }],
      isDirty := true }

/-- True when a connection has both endpoints present and non-empty. -/
def connHasEndpoints (c : Connection) : Bool :=
  !(optFalsy c.source || optFalsy c.target)

/-- Store action addNode. -/
def addNode (node : FlowNode) (st : FlowState) : FlowState :=
  { st with nodes := st.nodes ++ [node], isDirty := true }

/-- Store action deleteNode: removes the node, cascades to every edge
touching it, and clears the selection when it pointed at the deleted
node. -/
def deleteNode (nodeId : String) (st : FlowState) : FlowState :=
  { st with
    nodes := st.nodes.filter (fun n => n.id != nodeId),
    edges := st.edges.filter (fun e => e.source != nodeId && e.target != nodeId),
    selectedNodeId :=
      if st.selectedNodeId == some nodeId then none else st.selectedNodeId,
    isDirty := true }

/-- Store action deleteEdge. -/
def deleteEdge (edgeId : String) (st : FlowState) : FlowState :=
  { st with edges := st.edges.filter (fun e => e.id != edgeId), isDirty := true }

/-- Store action setSelectedNodeId: recomputes every selected flag from
the single id; the dirty flag is not touched. -/
def setSelectedNodeId (nodeId : Option String) (st : FlowState) : FlowState :=
  { st with
    nodes := st.nodes.map (fun n => { n with selected := some n.id == nodeId }),
    selectedNodeId := nodeId }

/-- Store action clearSelection. -/
def clearSelection (st : FlowState) : FlowState :=
  { st with
    nodes := st.nodes.map (fun n => { n with selected := false }),
    selectedNodeId := none }

/-- Store action setPendingNodeType. -/
def setPendingNodeType (nodeType : Option String) (st : FlowState) : FlowState :=
  { st with pendingNodeType := nodeType }

/-- Store action loadFlow: wholesale replace of nodes, edges and
viewport (defaulted when absent), selection cleared, dirty cleared; the
other fields of the state are left as they are. -/
def loadFlow (nodes : List FlowNode) (edges : List FlowEdge)
    (viewport : Option Viewport) (st : FlowState) : FlowState :=
  { st with
    nodes := nodes, edges := edges,
    viewport := viewport.getD initialViewport,
    selectedNodeId := none, isDirty := false }

/-- Store action resetFlow: empties the graph and additionally clears
the current flow id. -/
def resetFlow (st : FlowState) : FlowState :=
  { st with
    nodes := [], edges := [], viewport := initialViewport,
    selectedNodeId := none, isDirty := false, currentFlowId := none }

/-- Store action setCurrentFlowId. -/
def setCurrentFlowId (flowId : Option String) (st : FlowState) : FlowState :=
  { st with currentFlowId := flowId }

/-- Store action markDirty. -/
def markDirty (dirty : Bool) (st : FlowState) : FlowState :=
  { st with isDirty := dirty }

/-- The closed set of placeable kinds checked by the pane click handler
of the flow editor. -/
def placeableKinds : List String :=
  ["gitlab", "jenkins", "kubernetes", "sonarqube", "keycloak"]

/-- charAt(0).toUpperCase() + slice(1) applied to a kind string. -/
def capitalizeFirst (s : String) : String :=
  match s.data with
  | [] => ""
  | c :: cs => String.mk (c.toUpper :: cs)

/-- The node synthesized by the pane click handler when a placement is
committed: id kind-timestamp, type the kind, the transformed position,
and a data bag holding the capitalized label and the integration
type. -/
def mkPlacedNode (kind : String) (now : Nat) (pos : XYPosition) : FlowNode :=
  { id := kind ++ "-" ++ Nat.repr now,
    type := kind,
    position := pos,
    data := { label := capitalizeFirst kind, integrationType := kind } }

/-- The pane click handler of the flow editor: always clears the
selection; when a placeable kind is pending it synthesizes a node at
the transformed click position, submits it through the add change path
of the store, and disarms the pending kind.  The coordinate transform
of the rendering collaborator is passed as a function. -/
def onPaneClick (transform : XYPosition → XYPosition) (clickPos : XYPosition)
    (now : Nat) (st : FlowState) : FlowState :=
  let st1 := clearSelection st
  match st1.pendingNodeType with
  | some kind =>
      if placeableKinds.contains kind then
        setPendingNodeType none
          (onNodesChange [NodeChange.add (mkPlacedNode kind now (transform clickPos))] st1)
      else st1
  | none => st1

/-- The keydown handler of the flow editor: Escape while a kind is
pending disarms it; anything else is ignored. -/
def handleKeyDown (key : String) (st : FlowState) : FlowState :=
  if key == "Escape" && !(optFalsy st.pendingNodeType) then
    setPendingNodeType none st
  else st

/-- The palette click handler: clicking the already pending template
disarms it, clicking any other template makes it the pending one. -/
def handleClick (nodeType : String) (st : FlowState) : FlowState :=
  if st.pendingNodeType == some nodeType then setPendingNodeType none st
  else setPendingNodeType (some nodeType) st

/-- One field of a partial data update: absent (keep the old value) or
written, possibly written as an explicit undefined. -/
inductive PatchField (α : Type) where
  | keep : PatchField α
  | set : Option α → PatchField α
deriving DecidableEq, Repr

/-- Applies one patch field to the old optional value. -/
def PatchField.apply {α : Type} : PatchField α → Option α → Option α
  | .keep, v => v
  | .set w, _ => w

/-- A partial data record passed to updateNode (Partial of the node
data in the source). -/
structure DataPatch where
  label : Option String := none
  integrationType : Option String := none
  description : PatchField String := .keep
  integrationId : PatchField String := .keep
  selectedProjectId : PatchField Int := .keep
  selectedJobName : PatchField String := .keep
  selectedNamespace : PatchField String := .keep
  selectedProjectKey : PatchField String := .keep
  selectedRealm : PatchField String := .keep

/-- The shallow spread merge of a partial update into a data bag. -/
def mergeData (d : FlowNodeData) (p : DataPatch) : FlowNodeData :=
  { label := p.label.getD d.label,
    integrationType := p.integrationType.getD d.integrationType,
    description := p.description.apply d.description,
    integrationId := p.integrationId.apply d.integrationId,
    selectedProjectId := p.selectedProjectId.apply d.selectedProjectId,
    selectedJobName := p.selectedJobName.apply d.selectedJobName,
    selectedNamespace := p.selectedNamespace.apply d.selectedNamespace,
    selectedProjectKey := p.selectedProjectKey.apply d.selectedProjectKey,
    selectedRealm := p.selectedRealm.apply d.selectedRealm }

/-- Store action updateNode: shallow-merges the partial data into the
data of every node carrying the id. -/
def updateNode (nodeId : String) (p : DataPatch) (st : FlowState) : FlowState :=
  { st with
    nodes := st.nodes.map (fun n =>
      if n.id == nodeId then { n with data := mergeData n.data p } else n),
    isDirty := true }

/-- The updates record built by the integration-change handler of the
node properties form: the new integration id together with an explicit
undefined for the kind-specific selected item field. -/
def integrationChangePatch (nodeType : String) (value : String) : DataPatch :=
  let base : DataPatch := { integrationId := .set (some value) }
  if nodeType == "gitlab" then { base with selectedProjectId := .set none }
  else if nodeType == "jenkins" then { base with selectedJobName := .set none }
  else if nodeType == "kubernetes" then { base with selectedNamespace := .set none }
  else if nodeType == "sonarqube" then { base with selectedProjectKey := .set none }
  else if nodeType == "keycloak" then { base with selectedRealm := .set none }
  else base

/-- The integration selector handler of the node properties form: one
updateNode call carrying the new integration id and the cleared
kind-specific field. -/
def handleIntegrationChange (node : FlowNode) (value : String) (st : FlowState) : FlowState :=
  updateNode node.id (integrationChangePatch node.type value) st

/-- Checks that the kind-specific selected item field of a data bag is
absent. -/
def selectedFieldCleared (kind : String) (d : FlowNodeData) : Bool :=
  if kind == "gitlab" then d.selectedProjectId == none
  else if kind == "jenkins" then d.selectedJobName == none
  else if kind == "kubernetes" then d.selectedNamespace == none
  else if kind == "sonarqube" then d.selectedProjectKey == none
  else if kind == "keycloak" then d.selectedRealm == none
  else true

/-- An error reported by a fetch, carrying its message (the hooks
classify errors by substrings of the message). -/
structure FetchError where
  message : String
deriving DecidableEq, Repr

/-- Character-list prefix test. -/
def startsWithChars : List Char → List Char → Bool
  | [], _ => true
  | _ :: _, [] => false
  | a :: as, b :: bs => a == b && startsWithChars as bs

/-- Character-list substring test (String.includes of JavaScript). -/
def hasSubChars (sub : List Char) : List Char → Bool
  | [] => sub.isEmpty
  | c :: rest => startsWithChars sub (c :: rest) || hasSubChars sub rest

/-- error.message.includes(sub) of the retry predicates. -/
def msgIncludes (e : FetchError) (sub : String) : Bool :=
  hasSubChars sub.data e.message.data

/-- Retry predicate of useGitLabProjects: never on a 401, otherwise up
to three times. -/
def gitlabProjectsRetry (failureCount : Nat) (e : FetchError) : Bool :=
  if msgIncludes e "401" then false else decide (failureCount < 3)

/-- Retry predicate of useJenkinsJobs. -/
def jenkinsJobsRetry (failureCount : Nat) (e : FetchError) : Bool :=
  if msgIncludes e "401" then false else decide (failureCount < 3)

/-- Retry predicate of useK8sNamespaces: never on auth errors or
connection failures, otherwise up to three times. -/
def k8sNamespacesRetry (failureCount : Nat) (e : FetchError) : Bool :=
  if msgIncludes e "401" || msgIncludes e "403" || msgIncludes e "Failed to connect" then
    false
  else decide (failureCount < 3)

/-- Retry predicate of useSonarQubeProjects. -/
def sonarqubeProjectsRetry (failureCount : Nat) (e : FetchError) : Bool :=
  if msgIncludes e "401" then false else decide (failureCount < 3)

/-- Retry predicate of useKeycloakRealms: never on a 401, never on a
403, otherwise up to three times. -/
def keycloakRealmsRetry (failureCount : Nat) (e : FetchError) : Bool :=
  if msgIncludes e "401" then false
  else if msgIncludes e "403" then false
  else decide (failureCount < 3)

/-- The retry option a hook passes to the fetch collaborator: either a
predicate or nothing at all, leaving the collaborator default. -/
inductive RetryOption where
  | collaboratorDefault : RetryOption
  | pred : (Nat → FetchError → Bool) → RetryOption

/-- The query options of a listing hook that matter here. -/
structure QueryOpts where
  staleTimeMs : Nat
  gcTimeMs : Nat
  retry : RetryOption

/-- Options of useGitLabProjects. -/
def useGitLabProjectsOpts : QueryOpts :=
  { staleTimeMs := 30000, gcTimeMs := 60000, retry := .pred gitlabProjectsRetry }

/-- Options of useJenkinsJobs. -/
def useJenkinsJobsOpts : QueryOpts :=
  { staleTimeMs := 30000, gcTimeMs := 60000, retry := .pred jenkinsJobsRetry }

/-- Options of useK8sNamespaces. -/
def useK8sNamespacesOpts : QueryOpts :=
  { staleTimeMs := 30000, gcTimeMs := 60000, retry := .pred k8sNamespacesRetry }

/-- Options of useSonarQubeProjects. -/
def useSonarQubeProjectsOpts : QueryOpts :=
  { staleTimeMs := 300000, gcTimeMs := 600000, retry := .pred sonarqubeProjectsRetry }

/-- Options of useKeycloakRealms. -/
def useKeycloakRealmsOpts : QueryOpts :=
  { staleTimeMs := 300000, gcTimeMs := 600000, retry := .pred keycloakRealmsRetry }

/-- Options of useGitLabNodeData: no retry option is passed. -/
def useGitLabNodeDataOpts : QueryOpts :=
  { staleTimeMs := 30000, gcTimeMs := 60000, retry := .collaboratorDefault }

/-- Options of useJenkinsNodeData: no retry option is passed. -/
def useJenkinsNodeDataOpts : QueryOpts :=
  { staleTimeMs := 30000, gcTimeMs := 60000, retry := .collaboratorDefault }

/-- Options of useKubernetesNodeData: no retry option is passed. -/
def useKubernetesNodeDataOpts : QueryOpts :=
  { staleTimeMs := 30000, gcTimeMs := 60000, retry := .collaboratorDefault }

/-- Options of useSonarQubeNodeData: no retry option is passed. -/
def useSonarQubeNodeDataOpts : QueryOpts :=
  { staleTimeMs := 30000, gcTimeMs := 60000, retry := .collaboratorDefault }

/-- Options of useKeycloakNodeData: no retry option is passed. -/
def useKeycloakNodeDataOpts : QueryOpts :=
  { staleTimeMs := 30000, gcTimeMs := 60000, retry := .collaboratorDefault }

/-- Modelled from the spec: when a hook passes no retry option, the
fetch collaborator applies its default policy of retrying any failure
while the failure count is below three; a supplied predicate is used as
given. -/
def effectiveRetry : RetryOption → Nat → FetchError → Bool
  | .collaboratorDefault, n, _ => decide (n < 3)
  | .pred p, n, e => p n e

/-- Number of retries performed against a persistent error: the
predicate is consulted with the running failure count until it refuses,
with fuel bounding the loop. -/
def retriesFrom (p : Nat → FetchError → Bool) (e : FetchError) : Nat → Nat → Nat
  | 0, _ => 0
  | fuel + 1, fc => if p fc e then 1 + retriesFrom p e fuel (fc + 1) else 0

/-- Total fetch attempts against a persistent error: the initial
attempt plus the retries the policy grants. -/
def totalAttempts (r : RetryOption) (e : FetchError) : Nat :=
  1 + retriesFrom (effectiveRetry r) e 10 0

/-- Status of a cache entry of the integration data cache. -/
inductive CacheStatus where
  | initialStatus
  | loading
  | success
  | error
deriving DecidableEq, Repr

/-- Modelled from the spec: a read of a cache key starts a fetch only
when the key has no entry yet; a key already loading, resolved or
failed is served from the cache and triggers no new attempt. -/
def readTriggersFetch : Option CacheStatus → Bool
  | none => true
  | some .initialStatus => true
  | some .loading => false
  | some .success => false
  | some .error => false

/-- The ids of a node list, in order. -/
def nodeIds (nodes : List FlowNode) : List String :=
  nodes.map (fun n => n.id)

/-- Number of nodes flagged selected. -/
def countSelected (nodes : List FlowNode) : Nat :=
  nodes.countP (fun n => n.selected)

/-- A sample gitlab node used by concrete instances. -/
def nodeA : FlowNode :=
  { id := "A", type := "gitlab", position := { x := 0, y := 0 },
    data := { label := "A", integrationType := "gitlab" } }

/-- A sample jenkins node used by concrete instances. -/
def nodeB : FlowNode :=
  { id := "B", type := "jenkins", position := { x := 1, y := 1 },
    data := { label := "B", integrationType := "jenkins" } }

/-- A store holding the two sample nodes and no edges. -/
def stAB : FlowState := { initialState with nodes := [nodeA, nodeB] }

/-- A store armed with the gitlab template. -/
def stArmedGitlab : FlowState := { initialState with pendingNodeType := some "gitlab" }

/-- Runs a sequence of change batches through onNodesChange. -/
def runBatches (batches : List (List NodeChange)) (st : FlowState) : FlowState :=
  batches.foldl (fun s cs => onNodesChange cs s) st

/-- An operation touching the selection: a change batch routed through
onNodesChange, or a setSelectedNodeId call. -/
inductive SelectionOp where
  | batch (cs : List NodeChange)
  | setSel (i : Option String)
deriving Repr

/-- Executes one selection operation on the store. -/
def applySelectionOp (st : FlowState) : SelectionOp → FlowState
  | .batch cs => onNodesChange cs st
  | .setSel i => setSelectedNodeId i st

/-- A selection operation as the claim ranges over them: batches hold
select changes only. -/
def selOpOk : SelectionOp → Bool
  | .batch cs => cs.all isSelectChange
  | .setSel _ => true

/-- A sample authorization failure. -/
def err401 : FetchError := { message := "401 Unauthorized" }

/-- C10: loadFlow replaces exactly nodes, edges, viewport (defaulted
when absent), selection (cleared) and the dirty flag (cleared), leaving
pendingNodeType and currentFlowId untouched and storing the loaded
nodes verbatim, their selected flags included; resetFlow additionally
clears currentFlowId but also leaves pendingNodeType untouched. -/
theorem loadFlow_resetFlow_frame (ns : List FlowNode) (es : List FlowEdge)
    (vp : Option Viewport) (st : FlowState) :
    loadFlow ns es vp st =
      { st with nodes := ns, edges := es, viewport := vp.getD initialViewport,
                selectedNodeId := none, isDirty := false } ∧
    (loadFlow ns es vp st).pendingNodeType = st.pendingNodeType ∧
    (loadFlow ns es vp st).currentFlowId = st.currentFlowId ∧
    (loadFlow ns es vp st).nodes = ns ∧
    resetFlow st =
      { st with nodes := [], edges := [], viewport := initialViewport,
                selectedNodeId := none, isDirty := false, currentFlowId := none } ∧
    (resetFlow st).pendingNodeType = st.pendingNodeType :=
  ⟨rfl, rfl, rfl, rfl, rfl, rfl⟩

/-- C4: deleteNode removes every node carrying the id, leaves no edge
whose source or target equals the id, clears the selection exactly when
it pointed at the deleted node, and keeps it otherwise. -/
theorem deleteNode_cascade (x : String) (st : FlowState) :
    (deleteNode x st).nodes = st.nodes.filter (fun n => n.id != x) ∧
    (deleteNode x st).edges = st.edges.filter (fun e => e.source != x && e.target != x) ∧
    ((deleteNode x st).edges.all (fun e => e.source != x && e.target != x)) = true ∧
    (deleteNode x st).selectedNodeId =
      (if st.selectedNodeId == some x then none else st.selectedNodeId) := by
  refine ⟨rfl, rfl, ?_, rfl⟩
  simp only [deleteNode, List.all_eq_true]
  intro e he
  exact (List.mem_filter.mp he).2

/-- C6 counterexample: setViewport does not mark the store dirty, so a
viewport change on a clean store leaves it clean, against the claim
that every mutating operation besides loadFlow and resetFlow sets the
dirty flag. -/
theorem setViewport_leaves_clean_cx :
    (setViewport { x := 5, y := 7, zoom := 2 } initialState).isDirty = false := rfl

/-- C6 amended: only the node and edge mutators mark the store dirty
(onConnect only when both endpoints are present and non-empty);
setViewport, setSelectedNodeId, clearSelection, setPendingNodeType and
setCurrentFlowId leave the dirty flag unchanged; loadFlow and resetFlow
clear it. -/
theorem dirty_flag_policy (ns : List FlowNode) (es : List FlowEdge)
    (ncs : List NodeChange) (ecs : List EdgeChange) (c : Connection)
    (nd : FlowNode) (i : String) (p : DataPatch) (v : Viewport)
    (sel pt fid : Option String) (vp : Option Viewport) (d : Bool)
    (st : FlowState) :
    (setNodes ns st).isDirty = true ∧
    (setEdges es st).isDirty = true ∧
    (onNodesChange ncs st).isDirty = true ∧
    (onEdgesChange ecs st).isDirty = true ∧
    (onConnect c st).isDirty = (if connHasEndpoints c then true else st.isDirty) ∧
    (addNode nd st).isDirty = true ∧
    (updateNode i p st).isDirty = true ∧
    (deleteNode i st).isDirty = true ∧
    (deleteEdge i st).isDirty = true ∧
    (setViewport v st).isDirty = st.isDirty ∧
    (setSelectedNodeId sel st).isDirty = st.isDirty ∧
    (clearSelection st).isDirty = st.isDirty ∧
    (setPendingNodeType pt st).isDirty = st.isDirty ∧
    (setCurrentFlowId fid st).isDirty = st.isDirty ∧
    (markDirty d st).isDirty = d ∧
    (loadFlow ns es vp st).isDirty = false ∧
    (resetFlow st).isDirty = false := by
  refine ⟨rfl, rfl, rfl, rfl, ?_, rfl, rfl, rfl, rfl, rfl, rfl, rfl, rfl, rfl, rfl, rfl, rfl⟩
  by_cases hb : (optFalsy c.source || optFalsy c.target) = true
  · simp [onConnect, connHasEndpoints, hb]
  · simp [onConnect, connHasEndpoints, hb]

/-- C9: clicking the palette template that is already pending disarms
the placement and creates no node; clicking a template while a
different one (or none) is pending replaces the pending kind with the
clicked one.  The rest of the store, the node list included, is
untouched in both cases. -/
theorem palette_toggle_arm (k : String) (st st2 : FlowState)
    (h1 : st.pendingNodeType = some k) (h2 : st2.pendingNodeType ≠ some k) :
    handleClick k st = { st with pendingNodeType := none } ∧
    handleClick k st2 = { st2 with pendingNodeType := some k } := by
  constructor
  · simp [handleClick, setPendingNodeType, h1]
  · simp [handleClick, setPendingNodeType, beq_iff_eq, h2]

/-- C9 witness: toggling the armed gitlab template disarms it, and
arming gitlab from the idle store arms it. -/
theorem palette_toggle_arm_witness :
    handleClick "gitlab" stArmedGitlab = { stArmedGitlab with pendingNodeType := none } ∧
    handleClick "gitlab" initialState = { initialState with pendingNodeType := some "gitlab" } :=
  palette_toggle_arm "gitlab" stArmedGitlab initialState rfl (by decide)

/-- C8: onConnect with two non-empty endpoints appends exactly one edge
with the derived id and the given endpoints and handles, with no
deduplication against the existing list; a connection with a missing or
empty endpoint leaves the state untouched; and after connecting A to B
on the two-node sample store, deleting node A leaves the edge list
empty. -/
theorem onConnect_appends_and_cascades (s t : String) (hs ht : Option String)
    (st st2 : FlowState) (c : Connection)
    (h1 : (s == "") = false) (h2 : (t == "") = false)
    (h3 : connHasEndpoints c = false) :
    onConnect { source := some s, target := some t,
                sourceHandle := hs, targetHandle := ht } st
      = { st with
          edges := st.edges ++
            [{ id := "edge-" ++ s ++ "-" ++ t, source := s, target := t,
               sourceHandle := hs, targetHandle := ht }],
          isDirty := true } ∧
    onConnect c st2 = st2 ∧
    (deleteNode "A"
        (onConnect { source := some "A", target := some "B" } stAB)).edges = [] := by
  refine ⟨?_, ?_, ?_⟩
  · simp [onConnect, optFalsy, h1, h2]
  · have hb : (optFalsy c.source || optFalsy c.target) = true := by
      have h3' := h3
      unfold connHasEndpoints at h3'
      cases hsrc : optFalsy c.source <;> cases htgt : optFalsy c.target <;>
        simp [hsrc, htgt] at h3' ⊢
    simp [onConnect, hb]
  · decide

/-- C8 witness: the appending case at the sample store, the no-op case
at a sourceless connection, and the concrete cascade scenario. -/
theorem onConnect_appends_and_cascades_witness :
    onConnect { source := some "A", target := some "B",
                sourceHandle := none, targetHandle := none } stAB
      = { stAB with
          edges := stAB.edges ++
            [{ id := "edge-" ++ "A" ++ "-" ++ "B", source := "A", target := "B",
               sourceHandle := none, targetHandle := none }],
          isDirty := true } ∧
    onConnect { source := none, target := some "B" } initialState = initialState ∧
    (deleteNode "A"
        (onConnect { source := some "A", target := some "B" } stAB)).edges = [] :=
  onConnect_appends_and_cascades "A" "B" none none stAB initialState
    { source := none, target := some "B" } (by decide) (by decide) (by decide)

/-- C5: the integration selector handler of the property editor issues
one single updateNode call whose updates record carries the new
integration id together with an explicit undefined for the kind
specific selected item field, so after the merge the data bag of the
node holds the new integration id and a cleared selected item field,
for each of the five integration kinds. -/
theorem integration_change_cascade_clear (node : FlowNode) (value : String)
    (st : FlowState) (d : FlowNodeData)
    (hk : node.type ∈ placeableKinds) :
    handleIntegrationChange node value st
      = updateNode node.id (integrationChangePatch node.type value) st ∧
    (handleIntegrationChange node value st).nodes
      = st.nodes.map (fun n =>
          if n.id == node.id then
            { n with data := mergeData n.data (integrationChangePatch node.type value) }
          else n) ∧
    (mergeData d (integrationChangePatch node.type value)).integrationId = some value ∧
    selectedFieldCleared node.type (mergeData d (integrationChangePatch node.type value))
      = true := by
  refine ⟨rfl, rfl, ?_⟩
  have hk' : node.type = "gitlab" ∨ node.type = "jenkins" ∨ node.type = "kubernetes" ∨
      node.type = "sonarqube" ∨ node.type = "keycloak" := by
    simpa [placeableKinds] using hk
  rcases hk' with h | h | h | h | h <;> rw [h] <;> exact ⟨rfl, rfl⟩

/-- C5 witness: changing the integration of the sample jenkins node
writes the new id and clears the selected job name in the same call. -/
theorem integration_change_cascade_clear_witness :
    handleIntegrationChange nodeB "int-2"
        { stAB with nodes := [{ nodeB with data :=
            { nodeB.data with integrationId := some "int-1",
                              selectedJobName := some "job-x" } }] }
      = updateNode nodeB.id (integrationChangePatch nodeB.type "int-2")
          { stAB with nodes := [{ nodeB with data :=
              { nodeB.data with integrationId := some "int-1",
                                selectedJobName := some "job-x" } }] } ∧
    (handleIntegrationChange nodeB "int-2"
        { stAB with nodes := [{ nodeB with data :=
            { nodeB.data with integrationId := some "int-1",
                              selectedJobName := some "job-x" } }] }).nodes
      = [{ nodeB with data :=
            { nodeB.data with integrationId := some "int-1",
                              selectedJobName := some "job-x" } }].map (fun n =>
          if n.id == nodeB.id then
            { n with data := mergeData n.data (integrationChangePatch nodeB.type "int-2") }
          else n) ∧
    (mergeData
        { nodeB.data with integrationId := some "int-1", selectedJobName := some "job-x" }
        (integrationChangePatch nodeB.type "int-2")).integrationId = some "int-2" ∧
    selectedFieldCleared nodeB.type
        (mergeData
          { nodeB.data with integrationId := some "int-1", selectedJobName := some "job-x" }
          (integrationChangePatch nodeB.type "int-2")) = true :=
  integration_change_cascade_clear nodeB "int-2"
    { stAB with nodes := [{ nodeB with data :=
        { nodeB.data with integrationId := some "int-1",
                          selectedJobName := some "job-x" } }] }
    { nodeB.data with integrationId := some "int-1", selectedJobName := some "job-x" }
    (by decide)

/-- The projection of clearSelection on the pending kind: selection
clearing never touches the pending placement. -/
theorem clearSelection_pending (st : FlowState) :
    (clearSelection st).pendingNodeType = st.pendingNodeType := rfl

/-- C3: while armed with a placeable kind, a pane click appends exactly
one node — id kind-timestamp, type the kind, the transformed position,
data holding the capitalized label and the integration type — through
the add change path, and disarms the pending kind; Escape while armed
disarms with zero nodes created; a pane click while idle only clears
the selection. -/
theorem placement_commit_and_cancel (f : XYPosition → XYPosition)
    (pos : XYPosition) (now : Nat) (k : String) (st st2 st3 : FlowState)
    (h1 : st.pendingNodeType = some k)
    (h2 : k ∈ placeableKinds)
    (h3 : ∀ n ∈ st.nodes, n.id ≠ k ++ "-" ++ Nat.repr now)
    (h4 : optFalsy st2.pendingNodeType = false)
    (h5 : st3.pendingNodeType = none) :
    (onPaneClick f pos now st).nodes
      = st.nodes.map (fun n => { n with selected := false })
          ++ [mkPlacedNode k now (f pos)] ∧
    (onPaneClick f pos now st).pendingNodeType = none ∧
    (mkPlacedNode k now (f pos)).id = k ++ "-" ++ Nat.repr now ∧
    (mkPlacedNode k now (f pos)).type = k ∧
    (mkPlacedNode k now (f pos)).position = f pos ∧
    (mkPlacedNode k now (f pos)).data.label = capitalizeFirst k ∧
    (mkPlacedNode k now (f pos)).data.integrationType = k ∧
    handleKeyDown "Escape" st2 = { st2 with pendingNodeType := none } ∧
    onPaneClick f pos now st3 = clearSelection st3 := by
  have hc : placeableKinds.contains k = true := by
    simp [placeableKinds] at h2 ⊢
    rcases h2 with h | h | h | h | h <;> simp [h]
  have hany : ((clearSelection st).nodes.any
      (fun n => n.id == (mkPlacedNode k now (f pos)).id)) = false := by
    simp only [clearSelection, List.any_map, List.any_eq_false, Function.comp]
    intro n hn
    simpa [mkPlacedNode] using h3 n hn
  have hcommit : onPaneClick f pos now st =
      setPendingNodeType none
        (onNodesChange [NodeChange.add (mkPlacedNode k now (f pos))]
          (clearSelection st)) := by
    simp only [onPaneClick, clearSelection_pending, h1, hc, if_true]
  refine ⟨?_, ?_, rfl, rfl, rfl, rfl, rfl, ?_, ?_⟩
  · rw [hcommit]
    simp only [setPendingNodeType, onNodesChange, applyNodeChanges, List.foldl,
      applyNodeChange, hany, Bool.false_eq_true, if_false]
    rfl
  · rw [hcommit]
    rfl
  · simp [handleKeyDown, h4, setPendingNodeType]
  · simp only [onPaneClick, clearSelection_pending, h5]

/-- C3 witness: committing a gitlab placement at the sample timestamp
on the armed store yields the single synthesized node and disarms;
Escape on the armed store disarms; a click on the idle store only
clears selection. -/
theorem placement_commit_and_cancel_witness :
    (onPaneClick (fun p => p) { x := 120, y := 80 } 1700000000000 stArmedGitlab).nodes
      = stArmedGitlab.nodes.map (fun n => { n with selected := false })
          ++ [mkPlacedNode "gitlab" 1700000000000 { x := 120, y := 80 }] ∧
    (onPaneClick (fun p => p) { x := 120, y := 80 } 1700000000000
        stArmedGitlab).pendingNodeType = none ∧
    (mkPlacedNode "gitlab" 1700000000000 { x := 120, y := 80 }).id
      = "gitlab" ++ "-" ++ Nat.repr 1700000000000 ∧
    (mkPlacedNode "gitlab" 1700000000000 { x := 120, y := 80 }).type = "gitlab" ∧
    (mkPlacedNode "gitlab" 1700000000000 { x := 120, y := 80 }).position
      = { x := 120, y := 80 } ∧
    (mkPlacedNode "gitlab" 1700000000000 { x := 120, y := 80 }).data.label
      = capitalizeFirst "gitlab" ∧
    (mkPlacedNode "gitlab" 1700000000000 { x := 120, y := 80 }).data.integrationType
      = "gitlab" ∧
    handleKeyDown "Escape" stArmedGitlab
      = { stArmedGitlab with pendingNodeType := none } ∧
    onPaneClick (fun p => p) { x := 120, y := 80 } 1700000000000 initialState
      = clearSelection initialState := by
  have h := placement_commit_and_cancel (fun p => p) { x := 120, y := 80 }
    1700000000000 "gitlab" stArmedGitlab stArmedGitlab initialState
    rfl (by decide) (by intro n hn; simp [stArmedGitlab, initialState] at hn)
    (by decide) rfl
  simpa using h

/-- Mapping a function that keeps ids keeps the id list. -/
theorem nodeIds_map_of_id_eq {f : FlowNode → FlowNode}
    (h : ∀ n, (f n).id = n.id) :
    ∀ nodes : List FlowNode, nodeIds (nodes.map f) = nodeIds nodes
  | [] => rfl
  | a :: l => by
      have ih := nodeIds_map_of_id_eq h l
      simp only [nodeIds, List.map_cons] at ih ⊢
      rw [h a, ih]

/-- One change step keeps the ids duplicate-free. -/
theorem nodup_ids_applyNodeChange {nodes : List FlowNode} (c : NodeChange)
    (h : (nodeIds nodes).Nodup) : (nodeIds (applyNodeChange nodes c)).Nodup := by
  cases c with
  | add item =>
      cases hfalse : (nodes.any fun n => n.id == item.id) with
      | true => simpa [applyNodeChange, hfalse] using h
      | false =>
          have hni : item.id ∉ nodeIds nodes := by
            intro hmem
            rcases List.mem_map.mp hmem with ⟨n, hn, hid⟩
            have hx : (nodes.any fun n => n.id == item.id) = true :=
              List.any_eq_true.mpr ⟨n, hn, by simp [hid]⟩
            rw [hx] at hfalse
            cases hfalse
          have heq : applyNodeChange nodes (NodeChange.add item) = nodes ++ [item] := by
            simp [applyNodeChange, hfalse]
          rw [heq]
          have hids : nodeIds (nodes ++ [item]) = nodeIds nodes ++ [item.id] := by
            simp [nodeIds]
          rw [hids]
          simp [List.nodup_append, h, hni]
  | remove i =>
      have hsub : List.Sublist (nodeIds ((nodes.filter fun n => n.id != i))) (nodeIds nodes) :=
        List.Sublist.map _ (List.filter_sublist nodes)
      exact List.Nodup.sublist hsub h
  | position i p =>
      have hid : ∀ n : FlowNode,
          ((if n.id == i then { n with position := p } else n) : FlowNode).id = n.id := by
        intro n
        cases hh : (n.id == i) <;> simp [hh]
      show (nodeIds (nodes.map fun n =>
        if n.id == i then { n with position := p } else n)).Nodup
      rw [nodeIds_map_of_id_eq hid nodes]
      exact h
  | select i s =>
      cases s with
      | true =>
          have hid : ∀ n : FlowNode,
              (({ n with selected := n.id == i }) : FlowNode).id = n.id := fun _ => rfl
          show (nodeIds (nodes.map fun n => { n with selected := n.id == i })).Nodup
          rw [nodeIds_map_of_id_eq hid nodes]
          exact h
      | false =>
          have hid : ∀ n : FlowNode,
              ((if n.id == i then { n with selected := false } else n) : FlowNode).id
                = n.id := by
            intro n
            cases hh : (n.id == i) <;> simp [hh]
          show (nodeIds (nodes.map fun n =>
            if n.id == i then { n with selected := false } else n)).Nodup
          rw [nodeIds_map_of_id_eq hid nodes]
          exact h

/-- A whole batch keeps the ids duplicate-free. -/
theorem nodup_ids_applyNodeChanges (changes : List NodeChange) :
    ∀ {nodes : List FlowNode}, (nodeIds nodes).Nodup →
      (nodeIds (applyNodeChanges changes nodes)).Nodup := by
  induction changes with
  | nil => intro nodes h; exact h
  | cons c cs ih => intro nodes h; exact ih (nodup_ids_applyNodeChange c h)

/-- The node list produced by onNodesChange is the batch fold. -/
theorem onNodesChange_nodes (cs : List NodeChange) (st : FlowState) :
    (onNodesChange cs st).nodes = applyNodeChanges cs st.nodes := rfl

/-- Any sequence of batches keeps the ids duplicate-free. -/
theorem nodup_ids_runBatches (batches : List (List NodeChange)) :
    ∀ (st : FlowState), (nodeIds st.nodes).Nodup →
      (nodeIds (runBatches batches st).nodes).Nodup := by
  induction batches with
  | nil => intro st h; exact h
  | cons b bs ih =>
      intro st h
      exact ih (onNodesChange b st)
        (by rw [onNodesChange_nodes]; exact nodup_ids_applyNodeChanges b h)

/-- C1: starting from a node list with duplicate-free ids, every
sequence of change batches run through onNodesChange keeps the ids
duplicate-free, and an add change whose id is already present leaves
the node list exactly as it was — the colliding add is dropped and the
resident node is never overwritten. -/
theorem nodes_change_unique_ids (batches : List (List NodeChange)) (st : FlowState)
    (nodes : List FlowNode) (item : FlowNode)
    (h : (nodeIds st.nodes).Nodup)
    (hdup : item.id ∈ nodeIds nodes) :
    (nodeIds (runBatches batches st).nodes).Nodup ∧
    applyNodeChange nodes (NodeChange.add item) = nodes := by
  constructor
  · exact nodup_ids_runBatches batches st h
  · have hany : (nodes.any fun n => n.id == item.id) = true := by
      rcases List.mem_map.mp hdup with ⟨n, hn, hid⟩
      exact List.any_eq_true.mpr ⟨n, hn, by simp [hid]⟩
    simp [applyNodeChange, hany]

/-- C1 witness: feeding the same add twice from the empty store keeps
the ids duplicate-free, and re-adding the resident sample node is a
no-op on the one-node list. -/
theorem nodes_change_unique_ids_witness :
    (nodeIds (runBatches [[NodeChange.add nodeA], [NodeChange.add nodeA]]
        initialState).nodes).Nodup ∧
    applyNodeChange [nodeA] (NodeChange.add nodeA) = [nodeA] :=
  nodes_change_unique_ids [[NodeChange.add nodeA], [NodeChange.add nodeA]]
    initialState [nodeA] nodeA (by decide) (by decide)

/-- Under duplicate-free ids, at most one node matches a given id. -/
theorem countP_id_le_one {nodes : List FlowNode} (i : String)
    (h : (nodeIds nodes).Nodup) :
    (nodes.countP fun n => n.id == i) ≤ 1 := by
  induction nodes with
  | nil => simp
  | cons a l ih =>
      have h' : a.id ∉ nodeIds l ∧ (nodeIds l).Nodup := by
        simpa [nodeIds, List.nodup_cons] using h
      obtain ⟨hna, hnd⟩ := h'
      cases hai : (a.id == i) with
      | true =>
          have hzero : (l.countP fun n => n.id == i) = 0 := by
            apply List.countP_eq_zero.mpr
            intro n hn hni
            apply hna
            have hidn : n.id = i := by simpa using hni
            have haid : a.id = i := by simpa using hai
            rw [show a.id = n.id from haid.trans hidn.symm]
            exact List.mem_map.mpr ⟨n, hn, rfl⟩
          simp [List.countP_cons, hai, hzero]
      | false =>
          have hle := ih hnd
          simp only [List.countP_cons, hai, Bool.false_eq_true, if_false]
          omega

/-- Rewriting the selected count of a mapped list as a count over the
original list. -/
theorem countSelected_map_countP (g : FlowNode → FlowNode) :
    ∀ nodes : List FlowNode,
      countSelected (nodes.map g) = nodes.countP fun n => (g n).selected
  | [] => rfl
  | a :: l => by
      have ih := countSelected_map_countP g l
      simp only [countSelected, List.map_cons, List.countP_cons] at ih ⊢
      rw [ih]

/-- A predicate implying another counts no more often. -/
theorem countP_le_countP {p q : FlowNode → Bool}
    (hpq : ∀ n, p n = true → q n = true) :
    ∀ nodes : List FlowNode, nodes.countP p ≤ nodes.countP q
  | [] => Nat.le_refl _
  | a :: l => by
      have ih := countP_le_countP hpq l
      simp only [List.countP_cons]
      cases ha : p a with
      | true => simp [hpq a ha]; omega
      | false =>
          cases hqa : q a <;> simp [hqa] <;> omega

/-- A map that can only turn selected flags off does not increase the
selected count. -/
theorem countSelected_map_le {g : FlowNode → FlowNode}
    (hg : ∀ n, (g n).selected = true → n.selected = true)
    (nodes : List FlowNode) :
    countSelected (nodes.map g) ≤ countSelected nodes := by
  rw [countSelected_map_countP g nodes]
  exact countP_le_countP hg nodes

/-- An exclusive positive select leaves at most one selected node when
ids are duplicate-free. -/
theorem countSelected_select_true {nodes : List FlowNode} (i : String)
    (h : (nodeIds nodes).Nodup) :
    countSelected (nodes.map fun n => { n with selected := n.id == i }) ≤ 1 := by
  rw [countSelected_map_countP (fun n => { n with selected := n.id == i }) nodes]
  exact countP_id_le_one i h

/-- setSelectedNodeId leaves at most one selected node when ids are
duplicate-free. -/
theorem countSelected_setSelectedNodeId {nodes : List FlowNode} (i : Option String)
    (h : (nodeIds nodes).Nodup) :
    countSelected (nodes.map fun n => { n with selected := some n.id == i }) ≤ 1 := by
  rw [countSelected_map_countP (fun n => { n with selected := some n.id == i }) nodes]
  cases i with
  | none =>
      have hzero : (nodes.countP fun n => some n.id == none) = 0 := by
        apply List.countP_eq_zero.mpr
        intro n _
        show ¬((some n.id == none) = true)
        rw [show (some n.id == (none : Option String)) = false from rfl]
        simp
      rw [hzero]
      omega
  | some x =>
      exact countP_id_le_one x h

/-- A select change keeps both selection invariants. -/
theorem selInv_applyNodeChange {nodes : List FlowNode} (c : NodeChange)
    (hsel : isSelectChange c = true)
    (h1 : (nodeIds nodes).Nodup) (h2 : countSelected nodes ≤ 1) :
    (nodeIds (applyNodeChange nodes c)).Nodup ∧
    countSelected (applyNodeChange nodes c) ≤ 1 := by
  cases c with
  | add item => simp [isSelectChange] at hsel
  | remove i => simp [isSelectChange] at hsel
  | position i p => simp [isSelectChange] at hsel
  | select i s =>
      refine ⟨nodup_ids_applyNodeChange _ h1, ?_⟩
      cases s with
      | true =>
          show countSelected (nodes.map fun n => { n with selected := n.id == i }) ≤ 1
          exact countSelected_select_true i h1
      | false =>
          show countSelected (nodes.map fun n =>
            if n.id == i then { n with selected := false } else n) ≤ 1
          refine le_trans (countSelected_map_le ?_ nodes) h2
          intro n hn
          cases hh : (n.id == i) with
          | true => simp [hh] at hn
          | false => simpa [hh] using hn

/-- A batch of select changes keeps both selection invariants. -/
theorem selInv_applyNodeChanges (cs : List NodeChange) :
    ∀ {nodes : List FlowNode}, cs.all isSelectChange = true →
      (nodeIds nodes).Nodup → countSelected nodes ≤ 1 →
      (nodeIds (applyNodeChanges cs nodes)).Nodup ∧
      countSelected (applyNodeChanges cs nodes) ≤ 1 := by
  induction cs with
  | nil => intro nodes _ h1 h2; exact ⟨h1, h2⟩
  | cons c cs ih =>
      intro nodes hall h1 h2
      have hall' : isSelectChange c = true ∧ cs.all isSelectChange = true := by
        simpa [List.all_cons] using hall
      obtain ⟨hstep1, hstep2⟩ := selInv_applyNodeChange c hall'.1 h1 h2
      exact ih hall'.2 hstep1 hstep2

/-- A sequence of selection operations keeps both selection
invariants. -/
theorem selInv_ops (ops : List SelectionOp) :
    ∀ (st : FlowState), (∀ op ∈ ops, selOpOk op = true) →
      (nodeIds st.nodes).Nodup → countSelected st.nodes ≤ 1 →
      (nodeIds (ops.foldl applySelectionOp st).nodes).Nodup ∧
      countSelected (ops.foldl applySelectionOp st).nodes ≤ 1 := by
  induction ops with
  | nil => intro st _ h1 h2; exact ⟨h1, h2⟩
  | cons op ops ih =>
      intro st hok h1 h2
      have hop : selOpOk op = true := hok op (by simp)
      have hrest : ∀ o ∈ ops, selOpOk o = true := fun o ho => hok o (by simp [ho])
      cases op with
      | batch cs =>
          obtain ⟨hstep1, hstep2⟩ := selInv_applyNodeChanges cs hop h1 h2
          exact ih (onNodesChange cs st) hrest hstep1 hstep2
      | setSel i =>
          have hid : ∀ n : FlowNode,
              (({ n with selected := some n.id == i }) : FlowNode).id = n.id :=
            fun _ => rfl
          have hstep1 : (nodeIds (setSelectedNodeId i st).nodes).Nodup := by
            show (nodeIds (st.nodes.map fun n =>
              { n with selected := some n.id == i })).Nodup
            rw [nodeIds_map_of_id_eq hid st.nodes]
            exact h1
          have hstep2 : countSelected (setSelectedNodeId i st).nodes ≤ 1 :=
            countSelected_setSelectedNodeId i h1
          exact ih (setSelectedNodeId i st) hrest hstep1 hstep2

/-- C2: from a store whose node ids are duplicate-free and which has at
most one selected node, every sequence of select batches routed through
onNodesChange and of setSelectedNodeId calls leaves at most one node
selected — and since the sequence is arbitrary, the bound holds at
every observation point along any run; moreover after setSelectedNodeId
every node in the store is selected exactly when its id is the given
one. -/
theorem single_selection (ops : List SelectionOp) (st : FlowState)
    (i : Option String) (st4 : FlowState) (n : FlowNode)
    (h1 : (nodeIds st.nodes).Nodup)
    (h2 : countSelected st.nodes ≤ 1)
    (h3 : ∀ op ∈ ops, selOpOk op = true)
    (h4 : n ∈ (setSelectedNodeId i st4).nodes) :
    countSelected (ops.foldl applySelectionOp st).nodes ≤ 1 ∧
    n.selected = (some n.id == i) := by
  constructor
  · exact (selInv_ops ops st h3 h1 h2).2
  · have h4' : n ∈ st4.nodes.map (fun m => { m with selected := some m.id == i }) := h4
    rcases List.mem_map.mp h4' with ⟨m, _, rfl⟩
    rfl

/-- C2 witness: selecting A, then selecting B, then setSelectedNodeId A
on the two-node sample store keeps at most one node selected, and the
node produced for A by setSelectedNodeId is selected. -/
theorem single_selection_witness :
    countSelected
      ([SelectionOp.batch [NodeChange.select "A" true],
        SelectionOp.batch [NodeChange.select "B" true],
        SelectionOp.setSel (some "A")].foldl applySelectionOp stAB).nodes ≤ 1 ∧
    ({ nodeA with selected := true } : FlowNode).selected
      = (some ({ nodeA with selected := true } : FlowNode).id == some "A") :=
  single_selection
    [SelectionOp.batch [NodeChange.select "A" true],
     SelectionOp.batch [NodeChange.select "B" true],
     SelectionOp.setSel (some "A")]
    stAB (some "A") stAB { nodeA with selected := true }
    (by decide) (by decide) (by decide) (by decide)

/-- C7 counterexample: useGitLabNodeData passes no retry option, so the
effective policy is the collaborator default, which does retry a 401 —
three retries, four attempts in total — against the claim that a 401 is
never retried for any of the five integration types. -/
theorem nodeData_hook_retries_401_cx :
    useGitLabNodeDataOpts.retry = RetryOption.collaboratorDefault ∧
    effectiveRetry useGitLabNodeDataOpts.retry 0 err401 = true ∧
    totalAttempts useGitLabNodeDataOpts.retry err401 = 4 :=
  ⟨rfl, rfl, rfl⟩

/-- C7 amended: the five dedicated integration service hooks never
retry an error mentioning 401 and retry other failures exactly while
the failure count is below three, so a persistent 401 gets a single
attempt and the cache entry then rests in the error status, which a
subsequent read serves without a new fetch; the flow-node-data variants
of the hooks, however, pass no retry option at all, so the collaborator
default applies there and a 401 is retried like any other failure. -/
theorem service_hooks_never_retry_401 (fc : Nat) (e etr : FetchError)
    (h401 : msgIncludes e "401" = true)
    (htr : (msgIncludes etr "401" || msgIncludes etr "403" ||
        msgIncludes etr "Failed to connect") = false) :
    gitlabProjectsRetry fc e = false ∧
    jenkinsJobsRetry fc e = false ∧
    k8sNamespacesRetry fc e = false ∧
    sonarqubeProjectsRetry fc e = false ∧
    keycloakRealmsRetry fc e = false ∧
    gitlabProjectsRetry fc etr = decide (fc < 3) ∧
    jenkinsJobsRetry fc etr = decide (fc < 3) ∧
    k8sNamespacesRetry fc etr = decide (fc < 3) ∧
    sonarqubeProjectsRetry fc etr = decide (fc < 3) ∧
    keycloakRealmsRetry fc etr = decide (fc < 3) ∧
    totalAttempts useK8sNamespacesOpts.retry err401 = 1 ∧
    readTriggersFetch (some CacheStatus.error) = false := by
  have htr' : msgIncludes etr "401" = false ∧ msgIncludes etr "403" = false ∧
      msgIncludes etr "Failed to connect" = false := by
    cases ha : msgIncludes etr "401" <;> cases hb : msgIncludes etr "403" <;>
      cases hc : msgIncludes etr "Failed to connect" <;>
        simp [ha, hb, hc] at htr ⊢
  obtain ⟨ha, hb, hc⟩ := htr'
  refine ⟨?_, ?_, ?_, ?_, ?_, ?_, ?_, ?_, ?_, ?_, rfl, rfl⟩ <;>
    simp [gitlabProjectsRetry, jenkinsJobsRetry, k8sNamespacesRetry,
      sonarqubeProjectsRetry, keycloakRealmsRetry, h401, ha, hb, hc]

/-- C7 amended witness: a concrete 401 message is refused at failure
count one by all five service predicates, while a concrete timeout
message is retried there. -/
theorem service_hooks_never_retry_401_witness :
    gitlabProjectsRetry 1 { message := "Request failed: 401" } = false ∧
    jenkinsJobsRetry 1 { message := "Request failed: 401" } = false ∧
    k8sNamespacesRetry 1 { message := "Request failed: 401" } = false ∧
    sonarqubeProjectsRetry 1 { message := "Request failed: 401" } = false ∧
    keycloakRealmsRetry 1 { message := "Request failed: 401" } = false ∧
    gitlabProjectsRetry 1 { message := "network timeout" } = decide (1 < 3) ∧
    jenkinsJobsRetry 1 { message := "network timeout" } = decide (1 < 3) ∧
    k8sNamespacesRetry 1 { message := "network timeout" } = decide (1 < 3) ∧
    sonarqubeProjectsRetry 1 { message := "network timeout" } = decide (1 < 3) ∧
    keycloakRealmsRetry 1 { message := "network timeout" } = decide (1 < 3) ∧
    totalAttempts useK8sNamespacesOpts.retry err401 = 1 ∧
    readTriggersFetch (some CacheStatus.error) = false :=
  service_hooks_never_retry_401 1 { message := "Request failed: 401" }
    { message := "network timeout" } (by decide) (by decide)
